import Mathlib

/-!
# Verification of the Code-Smell-Detector analysis engine

Shallow embedding of the analysis engine of the Code-Smell-Detector
repository: the tree-sitter-backed metrics calculator (`ASTParser`), the
structural and lexical smell detectors, the per-file orchestrator
`analyzeCode`, and the batch aggregator `calculateStats`.

Modelling conventions:
* JavaScript numbers are modelled by `Nat`/`Int` where the source only
  ever holds integers, and by `ℚ` where fractions occur (cohesion score,
  averaged metrics).  A JS division whose divisor is zero is modelled by
  `Option ℚ` (`none` standing for the non-finite result, `NaN` in the one
  reachable case where the numerator is also zero).
* JS `Map`s and plain string-keyed objects are modelled by
  insertion-ordered association lists with overwrite-on-assignment.
* Regular-expression executions are modelled by abstract deterministic
  match-extraction functions (`LexMatchers`); the per-match detector logic
  is embedded faithfully.
* tree-sitter syntax nodes are modelled by `Node`, a rose tree whose
  children optionally carry a field name (`childForFieldName`).
-/

/-- Smell severity, `'low' | 'medium' | 'high'` in `types/index.ts`. -/
inductive Severity where
  | low
  | medium
  | high
deriving DecidableEq, Repr

/-- The closed set of smell kinds, `CodeSmellType` in `types/index.ts`. -/
inductive CodeSmellType where
  | LongFunction
  | LargeClass
  | DuplicateCode
  | PrimitiveObsession
  | LongParameterList
  | InappropriateIntimacy
  | GlobalVariables
  | ComplexCondition
  | DeepNesting
deriving DecidableEq, Repr

/-- `CodeMetrics` from `types/index.ts`, parameterised by the number
carrier so that the same record shape can hold exact per-file values
(`ℚ`) and possibly-NaN averages (`Option ℚ`). -/
structure CodeMetricsOf (α : Type) where
  cyclomaticComplexity : α
  linesOfCode : α
  methodCount : α
  inheritanceDepth : α
  couplingCount : α
  cohesionScore : α
deriving DecidableEq, Repr

/-- Per-file metrics record (`CodeMetrics` in the source). -/
abbrev CodeMetrics := CodeMetricsOf ℚ

/-- A `CodeSmell` record from `types/index.ts`, without the generated
`id` field; ids are attached by the orchestrator model (see `IdSmell`). -/
structure CodeSmell where
  type : CodeSmellType
  fileName : String
  lineNumber : Nat
  endLineNumber : Option Nat
  codeSnippet : String
  entityName : String
  description : String
  refactoringTip : String
  severity : Severity
  metrics : Option CodeMetrics
deriving DecidableEq, Repr

/-- A smell together with its generated `uuidv4()` identity. -/
abbrev IdSmell := String × CodeSmell

/-- `AnalysisResult` from `types/index.ts`. -/
structure AnalysisResult where
  fileName : String
  fileSize : Nat
  smells : List IdSmell
  totalSmells : Nat
  timestamp : Nat
  metrics : CodeMetrics
deriving DecidableEq, Repr

/-- The `smellsByType` record: an object literal with one counter per
smell kind, zero-initialised in `calculateStats`. -/
structure SmellsByType where
  LongFunction : Nat
  LargeClass : Nat
  DuplicateCode : Nat
  PrimitiveObsession : Nat
  LongParameterList : Nat
  InappropriateIntimacy : Nat
  GlobalVariables : Nat
  ComplexCondition : Nat
  DeepNesting : Nat
deriving DecidableEq, Repr

/-- `AnalysisStats` from `types/index.ts`.  `smellsByFile` is the
insertion-ordered string-keyed record; `worstFiles` keeps the
`{fileName, smellCount}` pairs. -/
structure AnalysisStats where
  totalFiles : Nat
  totalSmells : Nat
  smellsByType : SmellsByType
  smellsByFile : List (String × Nat)
  worstFiles : List (String × Nat)
  averageMetrics : CodeMetricsOf (Option ℚ)
deriving DecidableEq, Repr

/-- The opening-brace character, written by code point to keep brace
characters out of literals. -/
def openBrace : Char := Char.ofNat 123

/-- The closing-brace character. -/
def closeBrace : Char := Char.ofNat 125

/-! ## JS string primitives

The JS string operations used by the engine, modelled over the
code-point sequence of the string.  (Core `String` functions are avoided
because their byte-position implementations do not reduce inside the
kernel; these list-based models do.) -/

/-- JS `s.length`, modelled as the code-point count. -/
def jsLength (s : String) : Nat := s.toList.length

/-- Worker for `jsSplit`: `acc` is the current segment, reversed; the
fuel is an upper bound on the number of consumed characters (every step
consumes at least one character because the separators used by the
engine are non-empty). -/
def splitAux (sep : List Char) : Nat → List Char → List Char → List (List Char)
  | _, acc, [] => [acc.reverse]
  | 0, acc, cs => [acc.reverse ++ cs]
  | fuel + 1, acc, c :: cs =>
    if sep.isPrefixOf (c :: cs) then
      acc.reverse :: splitAux sep fuel [] ((c :: cs).drop sep.length)
    else splitAux sep fuel (c :: acc) cs

/-- JS `s.split(sep)` for a non-empty literal separator. -/
def jsSplit (s sep : String) : List String :=
  (splitAux sep.toList (s.toList.length + 1) [] s.toList).map List.asString

/-- Whether a character is JS whitespace (`\s`, ASCII range). -/
def isJsSpace (c : Char) : Bool :=
  c = ' ' ∨ c = '\t' ∨ c = '\n' ∨ c = '\r' ∨ c = Char.ofNat 11 ∨ c = Char.ofNat 12

/-- JS `s.trim()`. -/
def jsTrim (s : String) : String :=
  ((s.toList.dropWhile isJsSpace).reverse.dropWhile isJsSpace).reverse.asString

/-- JS `s.includes(c)` for a single-character needle. -/
def jsIncludesChar (s : String) (c : Char) : Bool := s.toList.contains c

/-- JS `s.startsWith(pre)`. -/
def jsStartsWith (s pre : String) : Bool := pre.toList.isPrefixOf s.toList

/-- JS `suffix` test, `s.endsWith(suf)` / an `…$` anchored pattern. -/
def jsEndsWith (s suf : String) : Bool :=
  suf.toList.reverse.isPrefixOf s.toList.reverse

/-- Join a list of strings with a separator (`Array.prototype.join`). -/
def jsJoin (sep : String) : List String → String
  | [] => ""
  | [x] => x
  | x :: y :: rest => x ++ sep ++ jsJoin sep (y :: rest)

/-- A tree-sitter syntax node: node-type tag, 0-based start row
(`startPosition.row`), source text of the node's span (`text`), and the
ordered children, each optionally carrying a tree-sitter field name. -/
inductive Node where
  | mk (ty : String) (row : Nat) (text : String) (children : List (Option String × Node))

/-- The node's type tag (`node.type`). -/
def Node.type : Node → String
  | .mk t _ _ _ => t

/-- The node's 0-based start row (`node.startPosition.row`). -/
def Node.row : Node → Nat
  | .mk _ r _ _ => r

/-- The node's source text (`node.text`). -/
def Node.text : Node → String
  | .mk _ _ x _ => x

/-- The node's children, with their optional field names. -/
def Node.children : Node → List (Option String × Node)
  | .mk _ _ _ cs => cs

/-- The node's children in order, field names dropped. -/
def Node.childNodes (n : Node) : List Node := n.children.map (·.2)

/-- `node.childForFieldName(name)`: the first child carrying the given
field name, if any. -/
def Node.childForFieldName (n : Node) (f : String) : Option Node :=
  (n.children.find? (fun c => c.1 = some f)).map (·.2)

mutual

/-- Full pre-order enumeration of a subtree: the every-node walk the
spec prescribes for the metrics calculator and the structural
detectors (used by the spec-side comparison definitions). -/
def Node.preorder : Node → List Node
  | .mk t r x cs => .mk t r x cs :: preorderChildren cs

/-- Pre-order enumeration of a child list. -/
def preorderChildren : List (Option String × Node) → List Node
  | [] => []
  | (_, n) :: cs => n.preorder ++ preorderChildren cs

end

/-- Look up the node reached from `root` by a list of child indices. -/
def nodeAtPath : Node → List Nat → Option Node
  | n, [] => some n
  | n, i :: p =>
    match n.childNodes.get? i with
    | some c => nodeAtPath c p
    | none => none

/-- A tree-sitter `TreeCursor` obtained from `node.walk()`: it is clamped
to the subtree of the node it was constructed from — `gotoParent` fails
on that node, and `gotoNextSibling` cannot move past it (the C
implementation only consults stack entries strictly above the cursor
base).  `rpath` is the child-index path from the walked root, innermost
index first. -/
structure Cursor where
  root : Node
  rpath : List Nat

/-- The node the cursor currently points at. -/
def Cursor.node (c : Cursor) : Node :=
  (nodeAtPath c.root c.rpath.reverse).getD c.root

/-- `cursor.gotoNextSibling()`: fails at the walked root. -/
def Cursor.gotoNextSibling (c : Cursor) : Option Cursor :=
  match c.rpath with
  | [] => none
  | i :: rest =>
    match nodeAtPath c.root rest.reverse with
    | some parent =>
      if (parent.childNodes.get? (i + 1)).isSome then
        some ⟨c.root, (i + 1) :: rest⟩
      else none
    | none => none

/-- `cursor.gotoParent()`: fails at the walked root. -/
def Cursor.gotoParent (c : Cursor) : Option Cursor :=
  match c.rpath with
  | [] => none
  | _ :: rest => some ⟨c.root, rest⟩

/-- One evaluation of the loop condition
`cursor.gotoNextSibling() || cursor.gotoParent() && cursor.gotoNextSibling()`
shared by every `ASTParser` metric: try the next sibling; otherwise go to
the parent and try its next sibling; if that also fails the loop ends. -/
def cursorStep (c : Cursor) : Option Cursor :=
  match c.gotoNextSibling with
  | some c' => some c'
  | none =>
    match c.gotoParent with
    | some cp => cp.gotoNextSibling
    | none => none

/-- The list of nodes visited by the `do … while` cursor loop, with fuel
bounding the iteration count (the loop body always runs at least once). -/
def cursorNodes : Nat → Cursor → List Node
  | 0, c => [c.node]
  | fuel + 1, c =>
    c.node ::
      match cursorStep c with
      | some c' => cursorNodes fuel c'
      | none => []

/-- The nodes visited by the cursor loop of the `ASTParser` metric
functions, starting from `node.walk()`.  Because the loop never calls
`gotoFirstChild`, and a cursor cannot leave the node it was constructed
from, the loop visits exactly the walked node itself. -/
def walkNodes (n : Node) : List Node :=
  cursorNodes n.preorder.length ⟨n, []⟩

theorem cursorNodes_root (n : Node) (fuel : Nat) :
    cursorNodes fuel ⟨n, []⟩ = [n] := by
  cases fuel <;> rfl

theorem walkNodes_eq (n : Node) : walkNodes n = [n] :=
  cursorNodes_root n _

namespace ASTParser

/-- The decision-introducing node types of
`calculateCyclomaticComplexity`. -/
def incrementingNodes : List String :=
  ["if_statement", "while_statement", "for_statement", "case_statement",
   "&&", "||", "catch_clause"]

/-- `ASTParser.calculateCyclomaticComplexity`: base complexity 1 plus one
increment per visited node whose type is decision-introducing, where the
visited nodes are those reached by the sibling-or-parent cursor loop. -/
def calculateCyclomaticComplexity (n : Node) : Nat :=
  1 + (walkNodes n).countP (fun m => incrementingNodes.contains m.type)

/-- `ASTParser.countMethods`: number of `function_definition` nodes among
the nodes visited by the cursor loop. -/
def countMethods (n : Node) : Nat :=
  (walkNodes n).countP (fun m => m.type = "function_definition")

/-- Depth of the `base_class` field chain of a node, with fuel for
termination (`calculateInheritanceDepth`'s inner `while`). -/
def baseClassDepth : Nat → Node → Nat
  | 0, _ => 0
  | fuel + 1, n =>
    match n.childForFieldName "base_class" with
    | some b => 1 + baseClassDepth fuel b
    | none => 0

/-- Size bound used as fuel for `baseClassDepth`. -/
def nodeCount (n : Node) : Nat := n.preorder.length

/-- `ASTParser.calculateInheritanceDepth`: maximum `base_class` chain
length over visited `class_specifier` nodes. -/
def calculateInheritanceDepth (n : Node) : Nat :=
  (walkNodes n).foldl
    (fun maxDepth m =>
      if m.type = "class_specifier" then
        max maxDepth (baseClassDepth (nodeCount m) m)
      else maxDepth)
    0

/-- `ASTParser.calculateCoupling`: number of distinct non-`std::` symbol
roots among visited qualified-identifier / field-expression /
call-expression nodes. -/
def calculateCoupling (n : Node) : Nat :=
  (((walkNodes n).filter
      (fun m =>
        ["qualified_identifier", "field_expression", "call_expression"].contains m.type
          ∧ ¬ jsStartsWith m.text "std::")).map
    (fun m => (jsSplit m.text "::").headD "")).dedup.length

/-- State of the collection pass of `calculateCohesion`: the method names
seen so far and, per method, the set of accessed field names (a JS `Map`
of `Set`s, modelled as insertion-ordered lists without duplicates). -/
structure CohesionAcc where
  methods : List String
  fieldAccesses : List (String × List String)

/-- `Set.add` on the per-method field set of the cohesion accumulator. -/
def addFieldAccess (fa : List (String × List String)) (m f : String) :
    List (String × List String) :=
  fa.map (fun p => if p.1 = m then (p.1, if p.2.contains f then p.2 else p.2 ++ [f]) else p)

/-- `Map.set(key, new Set())` for the cohesion accumulator. -/
def setEmptyFieldSet (fa : List (String × List String)) (m : String) :
    List (String × List String) :=
  if fa.any (fun p => p.1 = m) then fa.map (fun p => if p.1 = m then (m, []) else p)
  else fa ++ [(m, [])]

/-- The collection pass of `calculateCohesion` over the visited nodes: a
`function_definition` pushes its declarator text as a method with an
empty field set; a `field_expression` adds its `field` child's text to
the most recently seen method's set. -/
def cohesionCollect (nodes : List Node) : CohesionAcc :=
  nodes.foldl
    (fun acc m =>
      if m.type = "function_definition" then
        let methodName := ((m.childForFieldName "declarator").map Node.text).getD ""
        { methods := acc.methods ++ [methodName],
          fieldAccesses := setEmptyFieldSet acc.fieldAccesses methodName }
      else if m.type = "field_expression" then
        let fieldName := ((m.childForFieldName "field").map Node.text).getD ""
        match acc.methods.getLast? with
        | some currentMethod =>
          if currentMethod ≠ "" ∧ fieldName ≠ "" then
            { acc with fieldAccesses := addFieldAccess acc.fieldAccesses currentMethod fieldName }
          else acc
        | none => acc
      else acc)
    ⟨[], []⟩

/-- Field set of a method in the accumulator (`get(...) || new Set()`). -/
def fieldsOf (fa : List (String × List String)) (m : String) : List String :=
  ((fa.find? (fun p => p.1 = m)).map (·.2)).getD []

/-- Whether two field sets intersect. -/
def sharesField (f1 f2 : List String) : Bool :=
  f1.any (fun x => f2.contains x)

/-- The pair-counting pass of `calculateCohesion`: for every unordered
pair of distinct positions `i < j` in the method list, count the pair,
and count it as connected when the two field sets intersect. -/
def pairStats (fa : List (String × List String)) : List String → Nat × Nat
  | [] => (0, 0)
  | m :: ms =>
    let rest := pairStats fa ms
    (rest.1 + ms.length,
     rest.2 + ms.countP (fun m2 => sharesField (fieldsOf fa m) (fieldsOf fa m2)))

/-- `ASTParser.calculateCohesion`: LCOM-style score
`connectedPairs / methodPairs`, or 1 when there are no pairs. -/
def calculateCohesion (n : Node) : ℚ :=
  let acc := cohesionCollect (walkNodes n)
  let stats := pairStats acc.fieldAccesses acc.methods
  if stats.1 > 0 then (stats.2 : ℚ) / (stats.1 : ℚ) else 1

/-- `ASTParser.calculateMetrics` on an already-parsed root. -/
def calculateMetrics (root : Node) (code : String) : CodeMetrics :=
  { cyclomaticComplexity := (calculateCyclomaticComplexity root : ℚ),
    linesOfCode := ((jsSplit code "\n").length : ℚ),
    methodCount := (countMethods root : ℚ),
    inheritanceDepth := (calculateInheritanceDepth root : ℚ),
    couplingCount := (calculateCoupling root : ℚ),
    cohesionScore := calculateCohesion root }

end ASTParser

/-! ## Lexical model helpers -/

/-- 1-based line of a character index:
`content.substring(0, index).split('\n').length`. -/
def lineOfIndex (content : String) (index : Nat) : Nat :=
  (jsSplit ((content.toList.take index).asString) "\n").length

/-- Number of occurrences of a character in a string
(`(s.match(/c/g) || []).length`). -/
def countChar (s : String) (c : Char) : Nat :=
  s.toList.countP (fun d => d = c)

/-- JS `String.prototype.replace` with a plain-string pattern: replaces
only the first occurrence. -/
def replaceFirst (s pat repl : String) : String :=
  match jsSplit s pat with
  | [] => s
  | [_] => s
  | a :: b :: rest => a ++ repl ++ jsJoin pat (b :: rest)

/-- Substring test, `/pat/.test(s)` for a literal pattern. -/
def strContains (s pat : String) : Bool :=
  (jsSplit s pat).length > 1

/-- `replace(/\s+/g, ' ')` on a character list: every maximal whitespace
run becomes a single space.  The boolean records whether the previous
character was whitespace. -/
def collapseWs : Bool → List Char → List Char
  | _, [] => []
  | prev, c :: cs =>
    if isJsSpace c then
      if prev then collapseWs true cs else ' ' :: collapseWs true cs
    else c :: collapseWs false cs

/-- Drop leading spaces of a character list. -/
def dropLeadingSpaces (cs : List Char) : List Char :=
  cs.dropWhile (fun c => c = ' ')

/-- `body.replace(/\s+/g, ' ').trim()`: collapse whitespace runs to
single spaces, then trim (after collapsing, boundary whitespace is a
single space on either side). -/
def normalizeBody (s : String) : String :=
  ((dropLeadingSpaces (collapseWs false s.toList)).reverse.dropWhile (fun c => c = ' ')).reverse.asString

/-! ## Regex match records

The five global regexes of the lexical detectors are modelled by
abstract deterministic match extractors; each record carries the match
index and the captured groups exactly as destructured in the source. -/

/-- A match of the signature regex shared by `detectLongParameterLists`
and `detectPrimitiveObsession`. -/
structure SigMatch where
  index : Nat
  fullMatch : String
  returnType : String
  functionName : String
  params : String
deriving DecidableEq, Repr

/-- A match of the top-level declaration regex of
`detectGlobalVariables`. -/
structure GlobalMatch where
  index : Nat
  fullMatch : String
  varName : String
deriving DecidableEq, Repr

/-- A match of the function-with-body regex of `detectDuplicateCode`. -/
structure FnMatch where
  index : Nat
  returnType : String
  functionName : String
  params : String
  body : String
deriving DecidableEq, Repr

/-- A match of the class regex of `detectInappropriateIntimacy`. -/
structure ClassMatch where
  index : Nat
  className : String
  body : String
deriving DecidableEq, Repr

/-- A match of the `if (...)` regex of `detectComplexConditions`. -/
structure CondMatch where
  index : Nat
  fullMatch : String
  condition : String
deriving DecidableEq, Repr

/-- The deterministic regex-execution component used by the lexical
detectors: for each source regex, the ordered global-match list it
produces on a given text.  `memberAccesses` / `pointerAccesses` give the
`(object, member)` capture pairs of `/(\w+)\.(\w+)/g` and
`/(\w+)->(\w+)/g`; `condOps` gives the operator tokens matched by the
operator-counting regex of `detectComplexConditions`. -/
structure LexMatchers where
  sigMatches : String → List SigMatch
  globalMatches : String → List GlobalMatch
  fnMatches : String → List FnMatch
  classMatches : String → List ClassMatch
  condMatches : String → List CondMatch
  memberAccesses : String → List (String × String)
  pointerAccesses : String → List (String × String)
  condOps : String → List String

/-! ## Structural detectors -/

/-- The `enter` callback of `detectLongFunctions`, exactly as written in
the source, for one visited node: emits a smell when the node is a
`function_definition` whose body text spans more than 20
newline-separated lines.  (See `walkEnterNodes` for the nodes on which
the callback actually runs.) -/
def longFunctionSmell (fileName : String) (node : Node) : Option CodeSmell :=
  if node.type = "function_definition" then
    let functionName := ((node.childForFieldName "declarator").map Node.text).getD "anonymous"
    match node.childForFieldName "body" with
    | some body =>
      let lines := jsSplit body.text "\n"
      let startLine := node.row + 1
      if lines.length > 20 then
        let cyclomaticComplexity := ASTParser.calculateCyclomaticComplexity node
        let couplingCount := ASTParser.calculateCoupling node
        some
          { type := .LongFunction,
            fileName := fileName,
            lineNumber := startLine,
            endLineNumber := some (startLine + lines.length),
            codeSnippet :=
              (node.text.toList.take 500).asString ++
                (if jsLength node.text > 500 then "..." else ""),
            entityName := functionName,
            description :=
              "Function \"" ++ functionName ++ "\" is too long (" ++
                toString lines.length ++ " lines)",
            refactoringTip :=
              "Consider breaking this function into smaller, more focused functions that each handle a specific task.",
            severity :=
              if lines.length > 40 then .high
              else if lines.length > 30 then .medium
              else .low,
            metrics := some
              { cyclomaticComplexity := (cyclomaticComplexity : ℚ),
                linesOfCode := (lines.length : ℚ),
                methodCount := 1,
                inheritanceDepth := 0,
                couplingCount := (couplingCount : ℚ),
                cohesionScore := 1 } }
      else none
    | none => none
  else none

/-- The nodes on which the visitor object passed to `ast.walk({enter})`
is invoked.  In web-tree-sitter `SyntaxNode.walk()` takes no
parameters: the `{enter}` argument is silently ignored and a
`TreeCursor` is returned, so the `enter` callback is invoked on no node
at all. -/
def walkEnterNodes (_root : Node) : List Node := []

/-- `detectLongFunctions`: applies the `enter` callback
(`longFunctionSmell`) to every node on which `ast.walk({enter})`
invokes it — none, `SyntaxNode.walk()` ignoring its argument — so the
detector returns no findings on any input. -/
def detectLongFunctions (fileName : String) (root : Node) : List CodeSmell :=
  (walkEnterNodes root).filterMap (longFunctionSmell fileName)

/-- The `enter` callback of `detectLargeClasses`, exactly as written in
the source, for one visited node. -/
def largeClassSmell (fileName : String) (node : Node) : Option CodeSmell :=
  if node.type = "class_specifier" then
    let className := ((node.childForFieldName "name").map Node.text).getD "anonymous"
    match node.childForFieldName "body" with
    | some body =>
      let lines := jsSplit body.text "\n"
      let methodCount := ASTParser.countMethods node
      let inheritanceDepth := ASTParser.calculateInheritanceDepth node
      if lines.length > 200 ∨ methodCount > 10 then
        some
          { type := .LargeClass,
            fileName := fileName,
            lineNumber := node.row + 1,
            endLineNumber := none,
            codeSnippet := className ++ " \x7b ... \x7d",
            entityName := className,
            description :=
              "Class \"" ++ className ++ "\" is too large (" ++
                toString lines.length ++ " lines, " ++ toString methodCount ++ " methods)",
            refactoringTip :=
              "Consider using composition or splitting this class into smaller, more focused classes that follow the Single Responsibility Principle.",
            severity :=
              if lines.length > 500 ∨ methodCount > 20 then .high else .medium,
            metrics := some
              { cyclomaticComplexity := (ASTParser.calculateCyclomaticComplexity node : ℚ),
                linesOfCode := (lines.length : ℚ),
                methodCount := (methodCount : ℚ),
                inheritanceDepth := (inheritanceDepth : ℚ),
                couplingCount := (ASTParser.calculateCoupling node : ℚ),
                cohesionScore := ASTParser.calculateCohesion node } }
      else none
    | none => none
  else none

/-- `detectLargeClasses`: same `ast.walk({enter})` call as
`detectLongFunctions` — the callback (`largeClassSmell`) never runs, so
the detector returns no findings on any input. -/
def detectLargeClasses (fileName : String) (root : Node) : List CodeSmell :=
  (walkEnterNodes root).filterMap (largeClassSmell fileName)

/-! ## Lexical detectors -/

/-- `detectLongParameterLists`: flags signature matches with more than 4
non-empty comma-separated parameters. -/
def detectLongParameterLists (eng : LexMatchers) (content fileName : String) :
    List CodeSmell :=
  (eng.sigMatches content).filterMap (fun m =>
    let paramCount :=
      ((jsSplit m.params ",").filter (fun p => jsLength (jsTrim p) > 0)).length
    if paramCount > 4 then
      some
        { type := .LongParameterList,
          fileName := fileName,
          lineNumber := lineOfIndex content m.index,
          endLineNumber := none,
          codeSnippet := m.fullMatch,
          entityName := m.functionName,
          description :=
            "Function \"" ++ m.functionName ++ "\" has too many parameters (" ++
              toString paramCount ++ ")",
          refactoringTip :=
            "Consider grouping related parameters into objects or using the Parameter Object pattern.",
          severity :=
            if paramCount > 7 then .high
            else if paramCount > 5 then .medium
            else .low,
          metrics := none }
    else none)

/-- `detectGlobalVariables`: flags declaration matches whose preceding
text has balanced braces (cumulative depth zero). -/
def detectGlobalVariables (eng : LexMatchers) (content fileName : String) :
    List CodeSmell :=
  (eng.globalMatches content).filterMap (fun m =>
    let beforeMatch := (content.toList.take m.index).asString
    let braceCount : Int :=
      (countChar beforeMatch openBrace : Int) - (countChar beforeMatch closeBrace : Int)
    if braceCount = 0 then
      some
        { type := .GlobalVariables,
          fileName := fileName,
          lineNumber := lineOfIndex content m.index,
          endLineNumber := none,
          codeSnippet := m.fullMatch,
          entityName := m.varName,
          description := "Global variable \"" ++ m.varName ++ "\" detected",
          refactoringTip :=
            "Consider encapsulating global state in classes or using the Singleton pattern if appropriate.",
          severity := .medium,
          metrics := none }
    else none)

/-- The smell emitted by `detectDuplicateCode` for a repeated body. -/
def duplicateSmell (fileName functionName : String) (lineNumber : Nat)
    (origName : String) (origLine : Nat) : CodeSmell :=
  { type := .DuplicateCode,
    fileName := fileName,
    lineNumber := lineNumber,
    endLineNumber := none,
    codeSnippet := functionName ++ "(...) \x7b ... \x7d",
    entityName := functionName,
    description :=
      "Function \"" ++ functionName ++ "\" contains code duplicated from \"" ++
        origName ++ "\" (line " ++ toString origLine ++ ")",
    refactoringTip :=
      "Extract the duplicated code into a shared function that can be called from both places.",
    severity := .high,
    metrics := none }

/-- The match loop of `detectDuplicateCode`: `seen` is the
`functionBodies` map from normalized body to the first occurrence's name
and line. -/
def dupGo (content fileName : String) (seen : List (String × String × Nat)) :
    List FnMatch → List CodeSmell
  | [] => []
  | m :: ms =>
    let normalizedBody := normalizeBody m.body
    if jsLength normalizedBody > 100 then
      let lineNumber := lineOfIndex content m.index
      match seen.find? (fun p => p.1 = normalizedBody) with
      | some p =>
        duplicateSmell fileName m.functionName lineNumber p.2.1 p.2.2 ::
          dupGo content fileName seen ms
      | none =>
        dupGo content fileName
          (seen ++ [(normalizedBody, m.functionName, lineNumber)]) ms
    else dupGo content fileName seen ms

/-- `detectDuplicateCode`: bodies longer than 100 normalized characters
are remembered by normalized text; a repeat is reported against the
later occurrence, referencing the first. -/
def detectDuplicateCode (eng : LexMatchers) (content fileName : String) :
    List CodeSmell :=
  dupGo content fileName [] (eng.fnMatches content)

/-- The domain-suffix test `/(?:id|code|name|address|phone|email|date|time)$/`. -/
def domainSuffixTest (paramName : String) : Bool :=
  ["id", "code", "name", "address", "phone", "email", "date", "time"].any
    (fun suf => jsEndsWith paramName suf)

/-- The primitive-type test `/(int|float|double|char|bool|string)/`. -/
def primitiveTest (param : String) : Bool :=
  ["int", "float", "double", "char", "bool", "string"].any (strContains param)

/-- `detectPrimitiveObsession`: flags signature matches with at least two
parameters that pair a primitive type token with a domain-suggestive
name suffix. -/
def detectPrimitiveObsession (eng : LexMatchers) (content fileName : String) :
    List CodeSmell :=
  (eng.sigMatches content).filterMap (fun m =>
    let paramList := (jsSplit m.params ",").map jsTrim
    let suspiciousParams : List String := paramList.filter (fun param =>
      let paramParts := jsSplit param " "
      let paramName :=
        replaceFirst (replaceFirst (paramParts.getLastD "") "*" "") "&" ""
      domainSuffixTest paramName && primitiveTest param)
    if suspiciousParams.length ≥ 2 then
      some
        { type := .PrimitiveObsession,
          fileName := fileName,
          lineNumber := lineOfIndex content m.index,
          endLineNumber := none,
          codeSnippet := m.fullMatch,
          entityName := m.functionName,
          description :=
            "Function \"" ++ m.functionName ++ "\" uses multiple primitive types that could be an object",
          refactoringTip :=
            "Consider creating a class to encapsulate related primitive values.",
          severity := .medium,
          metrics := none }
    else none)

/-- Increment a counter in a JS-`Map`-like insertion-ordered count list. -/
def bumpCount (m : List (String × Nat)) (k : String) : List (String × Nat) :=
  if m.any (fun p => p.1 = k) then
    m.map (fun p => if p.1 = k then (p.1, p.2 + 1) else p)
  else m ++ [(k, 1)]

/-- `detectInappropriateIntimacy`: per class match, counts member and
pointer accesses by receiver (excluding `this`/`std`/`string`) and flags
receivers accessed more than 5 times. -/
def detectInappropriateIntimacy (eng : LexMatchers) (content fileName : String) :
    List CodeSmell :=
  (eng.classMatches content).flatMap (fun m =>
    let step := fun (acc : List (String × Nat)) (pr : String × String) =>
      if pr.1 ≠ "this" ∧ pr.1 ≠ "std" ∧ pr.1 ≠ "string" then bumpCount acc pr.1
      else acc
    let classReferences :=
      (eng.pointerAccesses m.body).foldl step
        ((eng.memberAccesses m.body).foldl step [])
    classReferences.filterMap (fun rc =>
      if rc.2 > 5 then
        some
          { type := .InappropriateIntimacy,
            fileName := fileName,
            lineNumber := lineOfIndex content m.index,
            endLineNumber := none,
            codeSnippet := "class " ++ m.className ++ " \x7b ... \x7d",
            entityName := m.className,
            description :=
              "Class \"" ++ m.className ++ "\" has inappropriate intimacy with \"" ++
                rc.1 ++ "\" (" ++ toString rc.2 ++ " accesses)",
            refactoringTip :=
              "Consider moving some functionality or creating an intermediary class to reduce coupling.",
            severity := if rc.2 > 10 then .high else .medium,
            metrics := none }
      else none))

/-- `detectComplexConditions`: flags `if (...)` matches whose condition
contains more than 3 logical/relational operator tokens. -/
def detectComplexConditions (eng : LexMatchers) (content fileName : String) :
    List CodeSmell :=
  (eng.condMatches content).filterMap (fun m =>
    let operatorCount := (eng.condOps m.condition).length
    if operatorCount > 3 then
      some
        { type := .ComplexCondition,
          fileName := fileName,
          lineNumber := lineOfIndex content m.index,
          endLineNumber := none,
          codeSnippet := m.fullMatch,
          entityName := "condition",
          description :=
            "Complex condition with " ++ toString operatorCount ++ " operators",
          refactoringTip :=
            "Break the condition into smaller, well-named boolean variables or methods.",
          severity := if operatorCount > 5 then .high else .medium,
          metrics := none }
    else none)

/-! ## Deep-nesting detector -/

/-- The smell emitted by `detectDeepNesting` when a closing brace fires
at the recorded maximum depth. -/
def deepNestingSmell (fileName : String) (nestingStartLine : Nat)
    (maxNestingLevel : Int) : CodeSmell :=
  { type := .DeepNesting,
    fileName := fileName,
    lineNumber := nestingStartLine,
    endLineNumber := none,
    codeSnippet := "Nested block \x7b ... \x7d",
    entityName := "nested_block",
    description :=
      "Deep nesting detected (" ++ toString maxNestingLevel ++ " levels)",
    refactoringTip :=
      "Consider using early returns, guard clauses, or extracting nested logic into separate methods.",
    severity := if maxNestingLevel > 4 then .high else .medium,
    metrics := none }

/-- Loop state of `detectDeepNesting`: the running brace counter, the
maximum depth recorded in the current run, the 1-based line where that
maximum was recorded, and the smells emitted so far. -/
structure DeepNestingState where
  currentNestingLevel : Int
  maxNestingLevel : Int
  nestingStartLine : Nat
  smells : List CodeSmell
deriving DecidableEq, Repr

/-- One iteration of the `detectDeepNesting` line loop (`i` is the
0-based line index): a line containing an opening brace increments the
counter and possibly records a new maximum; a line containing a closing
brace first emits a smell if the counter sits at a recorded maximum
greater than 3, then decrements, resetting the maximum when the counter
returns to zero. -/
def deepNestingLine (fileName : String) (i : Nat) (rawLine : String)
    (st : DeepNestingState) : DeepNestingState :=
  let line := jsTrim rawLine
  let st :=
    if jsIncludesChar line openBrace then
      let lvl := st.currentNestingLevel + 1
      if lvl > st.maxNestingLevel then
        { st with currentNestingLevel := lvl, maxNestingLevel := lvl,
                  nestingStartLine := i + 1 }
      else { st with currentNestingLevel := lvl }
    else st
  if jsIncludesChar line closeBrace then
    let smells :=
      if st.currentNestingLevel = st.maxNestingLevel ∧ st.maxNestingLevel > 3 then
        st.smells ++ [deepNestingSmell fileName st.nestingStartLine st.maxNestingLevel]
      else st.smells
    let lvl := st.currentNestingLevel - 1
    if lvl = 0 then
      { currentNestingLevel := lvl, maxNestingLevel := 0,
        nestingStartLine := st.nestingStartLine, smells := smells }
    else { st with currentNestingLevel := lvl, smells := smells }
  else st

/-- The indexed line loop of `detectDeepNesting`. -/
def deepNestingGo (fileName : String) : Nat → List String → DeepNestingState → DeepNestingState
  | _, [], st => st
  | i, l :: ls, st => deepNestingGo fileName (i + 1) ls (deepNestingLine fileName i l st)

/-- `detectDeepNesting` on the already-split line list. -/
def detectDeepNestingLines (fileName : String) (lines : List String) : List CodeSmell :=
  (deepNestingGo fileName 0 lines ⟨0, 0, 0, []⟩).smells

/-- `detectDeepNesting`: splits the content into lines and runs the
brace-tracking loop. -/
def detectDeepNesting (content fileName : String) : List CodeSmell :=
  detectDeepNestingLines fileName (jsSplit content "\n")

/-! ## Orchestrator and content store -/

/-- Assignment into the `fileContentStore` map (`Map.set`): overwrite in
place, or append a fresh entry. -/
def storeSet (store : List (String × String)) (k v : String) :
    List (String × String) :=
  if store.any (fun p => p.1 = k) then
    store.map (fun p => if p.1 = k then (k, v) else p)
  else store ++ [(k, v)]

/-- `Map.get` on the content store. -/
def storeGet (store : List (String × String)) (k : String) : Option String :=
  (store.find? (fun p => p.1 = k)).map (·.2)

/-- `getFileContent`: `fileContentStore.get(fileName) || '// File content
not available'`.  The JS `||` yields the sentinel both when the key is
absent and when the stored string is empty (the empty string is falsy). -/
def getFileContent (store : List (String × String)) (fileName : String) : String :=
  match storeGet store fileName with
  | some s => if s = "" then "// File content not available" else s
  | none => "// File content not available"

/-- Attach one fresh `uuidv4()` per smell, in creation order, drawing
successive values from the uuid supply. -/
def assignIds (uuids : Nat → String) : Nat → List CodeSmell → List IdSmell
  | _, [] => []
  | i, s :: rest => (uuids i, s) :: assignIds uuids (i + 1) rest

/-- `analyzeCode`: stores the submitted text under the file name, then
parses (`parse` models the tree-sitter parser, `none` a thrown
initialization/parse error, which in the source aborts the analysis with
no result), computes file metrics, runs the nine detectors in
registration order, and assembles the `AnalysisResult`.  `uuids` models
the `uuidv4()` supply and `now` the `Date.now()` clock. -/
def analyzeCode (eng : LexMatchers) (parse : String → Option Node)
    (uuids : Nat → String) (now : Nat) (store : List (String × String))
    (content fileName : String) :
    List (String × String) × Option AnalysisResult :=
  let store := storeSet store fileName content
  match parse content with
  | none => (store, none)
  | some root =>
    let metrics := ASTParser.calculateMetrics root content
    let raw : List CodeSmell :=
      detectLongFunctions fileName root ++
      detectLargeClasses fileName root ++
      detectLongParameterLists eng content fileName ++
      detectGlobalVariables eng content fileName ++
      detectDuplicateCode eng content fileName ++
      detectPrimitiveObsession eng content fileName ++
      detectInappropriateIntimacy eng content fileName ++
      detectComplexConditions eng content fileName ++
      detectDeepNesting content fileName
    let smells := assignIds uuids 0 raw
    (store,
     some
       { fileName := fileName,
         fileSize := jsLength content,
         smells := smells,
         totalSmells := smells.length,
         timestamp := now,
         metrics := metrics })

/-! ## Aggregator -/

/-- Zero-initialised `smellsByType` record. -/
def zeroSmellsByType : SmellsByType :=
  ⟨0, 0, 0, 0, 0, 0, 0, 0, 0⟩

/-- `smellsByType[smell.type]++`. -/
def bumpType (m : SmellsByType) : CodeSmellType → SmellsByType
  | .LongFunction => { m with LongFunction := m.LongFunction + 1 }
  | .LargeClass => { m with LargeClass := m.LargeClass + 1 }
  | .DuplicateCode => { m with DuplicateCode := m.DuplicateCode + 1 }
  | .PrimitiveObsession => { m with PrimitiveObsession := m.PrimitiveObsession + 1 }
  | .LongParameterList => { m with LongParameterList := m.LongParameterList + 1 }
  | .InappropriateIntimacy => { m with InappropriateIntimacy := m.InappropriateIntimacy + 1 }
  | .GlobalVariables => { m with GlobalVariables := m.GlobalVariables + 1 }
  | .ComplexCondition => { m with ComplexCondition := m.ComplexCondition + 1 }
  | .DeepNesting => { m with DeepNesting := m.DeepNesting + 1 }

/-- Assignment into the string-keyed `smellsByFile` record
(`smellsByFile[result.fileName] = result.totalSmells`): overwrite in
place, or append. -/
def recordSet (m : List (String × Nat)) (k : String) (v : Nat) :
    List (String × Nat) :=
  if m.any (fun p => p.1 = k) then
    m.map (fun p => if p.1 = k then (k, v) else p)
  else m ++ [(k, v)]

/-- The comparator `(a, b) => b.smellCount - a.smellCount` as an order
relation: `a` sorts no later than `b` when `b`'s count is at most
`a`'s. -/
def byCountDesc (a b : String × Nat) : Prop := b.2 ≤ a.2

instance : DecidableRel byCountDesc := fun a b => by
  unfold byCountDesc; infer_instance

instance : IsTotal (String × Nat) byCountDesc :=
  ⟨fun a b => le_total b.2 a.2⟩

instance : IsTrans (String × Nat) byCountDesc :=
  ⟨fun _ _ _ h1 h2 => le_trans h2 h1⟩

/-- The `[...].sort((a, b) => b.smellCount - a.smellCount)` call.
`Array.prototype.sort` is guaranteed stable by the ECMAScript
specification; a stable descending sort is modelled by insertion sort
with `byCountDesc`, which keeps earlier elements in front of later
equal-count ones. -/
def sortDesc (l : List (String × Nat)) : List (String × Nat) :=
  l.insertionSort byCountDesc

/-- JS division as used for the averaged metrics: defined for a nonzero
divisor; `none` models the non-finite JS result of dividing by zero (in
`calculateStats` the only such case is `0 / 0 = NaN`, on an empty
batch). -/
def jsDiv (a b : ℚ) : Option ℚ :=
  if b = 0 then none else some (a / b)

/-- One step of the `results.forEach` loop of `calculateStats`: assign
the file's finding count into `smellsByFile` and tally each smell's kind
into `smellsByType`. -/
def statsTally (acc : List (String × Nat) × SmellsByType) (r : AnalysisResult) :
    List (String × Nat) × SmellsByType :=
  (recordSet acc.1 r.fileName r.totalSmells,
   r.smells.foldl (fun m s => bumpType m s.2.type) acc.2)

/-- `calculateStats`: totals, per-kind and per-file tallies, the
top-five worst files, and per-field averaged metrics. -/
def calculateStats (results : List AnalysisResult) : AnalysisStats :=
  let totalFiles := results.length
  let totalSmells := results.foldl (fun sum r => sum + r.totalSmells) 0
  let tallies := results.foldl statsTally ([], zeroSmellsByType)
  let smellsByFile := tallies.1
  let worstFiles := (sortDesc smellsByFile).take 5
  let sums : CodeMetrics :=
    results.foldl
      (fun acc r =>
        { cyclomaticComplexity := acc.cyclomaticComplexity + r.metrics.cyclomaticComplexity,
          linesOfCode := acc.linesOfCode + r.metrics.linesOfCode,
          methodCount := acc.methodCount + r.metrics.methodCount,
          inheritanceDepth := acc.inheritanceDepth + r.metrics.inheritanceDepth,
          couplingCount := acc.couplingCount + r.metrics.couplingCount,
          cohesionScore := acc.cohesionScore + r.metrics.cohesionScore })
      ⟨0, 0, 0, 0, 0, 0⟩
  { totalFiles := totalFiles,
    totalSmells := totalSmells,
    smellsByType := tallies.2,
    smellsByFile := smellsByFile,
    worstFiles := worstFiles,
    averageMetrics :=
      { cyclomaticComplexity := jsDiv sums.cyclomaticComplexity totalFiles,
        linesOfCode := jsDiv sums.linesOfCode totalFiles,
        methodCount := jsDiv sums.methodCount totalFiles,
        inheritanceDepth := jsDiv sums.inheritanceDepth totalFiles,
        couplingCount := jsDiv sums.couplingCount totalFiles,
        cohesionScore := jsDiv sums.cohesionScore totalFiles } }

/-! ## Spec-side comparison definitions -/

/-- Follows the spec's words (cyclomatic complexity, §4.2 of the spec):
start at 1 and increment once per decision-introducing construct among
all descendant nodes, every node visited exactly once. -/
def specCyclomaticComplexity (n : Node) : Nat :=
  1 + (preorderChildren n.children).countP
        (fun m => ASTParser.incrementingNodes.contains m.type)

/-- Follows the spec's words (deep nesting, §4.4 of the spec): the
maximum brace depth reached within each top-level nesting run, using the
same per-line brace tests as the detector; the counter resets whenever
it returns to zero, closing the run. -/
def specRunMaxima : Int → Int → List String → List Int
  | _, _, [] => []
  | lvl, mx, rawLine :: ls =>
    let line := jsTrim rawLine
    let lvl1 := if jsIncludesChar line openBrace then lvl + 1 else lvl
    let mx1 := max mx lvl1
    if jsIncludesChar line closeBrace then
      if lvl1 - 1 = 0 then mx1 :: specRunMaxima 0 0 ls
      else specRunMaxima (lvl1 - 1) mx1 ls
    else specRunMaxima lvl1 mx1 ls

/-! ## Concrete inputs used by witnesses and counterexamples -/

/-- A file root (`translation_unit`) with a single conditional child. -/
def exIfNode : Node :=
  .mk "translation_unit" 0 "if (x) f();"
    [(none, .mk "if_statement" 0 "if (x) f();" [])]

/-- A line consisting of one opening brace. -/
def openLine : String := "\x7b"

/-- A line consisting of one closing brace. -/
def closeLine : String := "\x7d"

/-- A single top-level nesting run that climbs to depth 4, dips to 3,
returns to 4, and then closes: one run, maximum depth 4. -/
def doublePeakLines : List String :=
  [openLine, openLine, openLine, openLine, closeLine, openLine,
   closeLine, closeLine, closeLine, closeLine]

/-! ## C1 — cyclomatic complexity and the cursor traversal -/

/-- **C1** (code bug).  The claim states that
`calculateCyclomaticComplexity` returns 1 plus the tally of
decision-introducing constructs over **all descendant nodes**.  The
code's loop advances only by `gotoNextSibling`/`gotoParent` and never
calls `gotoFirstChild`; since a tree-sitter cursor cannot leave the node
it was created from, the loop visits only the walked node itself.  On a
file root holding a single `if_statement` child the code returns the
base complexity 1, while the claimed tally is 2. -/
theorem cyclomatic_complexity_misses_descendants :
    ASTParser.calculateCyclomaticComplexity exIfNode = 1 ∧
    specCyclomaticComplexity exIfNode = 2 :=
  ⟨by decide, by decide⟩

/-! ## C8 — cohesion score bounds -/

theorem pairStats_snd_le_fst (fa : List (String × List String)) :
    ∀ ms : List String,
      (ASTParser.pairStats fa ms).2 ≤ (ASTParser.pairStats fa ms).1
  | [] => le_refl 0
  | m :: ms => by
    simp only [ASTParser.pairStats]
    exact Nat.add_le_add (pairStats_snd_le_fst fa ms) (List.countP_le_length _)

theorem pairStats_fst_eq_zero (fa : List (String × List String))
    (ms : List String) (h : ms.length ≤ 1) :
    (ASTParser.pairStats fa ms).1 = 0 := by
  match ms with
  | [] => rfl
  | [m] => simp [ASTParser.pairStats]
  | a :: b :: t => simp at h

theorem cohesionCollect_methods_short (n : Node) :
    (ASTParser.cohesionCollect (walkNodes n)).methods.length ≤ 1 := by
  rw [walkNodes_eq]
  unfold ASTParser.cohesionCollect
  simp only [List.foldl]
  split
  · simp
  · split
    · split
      · split
        · simp
        · simp
      · simp
    · simp

/-- **C8** (confirmed).  `calculateCohesion` always lands in `[0, 1]`
— the connected-pair count never exceeds the pair count — and returns
exactly 1 when the unit has fewer than two methods. -/
theorem cohesion_in_unit_interval (n : Node) :
    (0 ≤ ASTParser.calculateCohesion n ∧ ASTParser.calculateCohesion n ≤ 1) ∧
    (ASTParser.countMethods n < 2 → ASTParser.calculateCohesion n = 1) := by
  have hfew := cohesionCollect_methods_short n
  have hzero := pairStats_fst_eq_zero
    (ASTParser.cohesionCollect (walkNodes n)).fieldAccesses
    (ASTParser.cohesionCollect (walkNodes n)).methods hfew
  constructor
  · unfold ASTParser.calculateCohesion
    by_cases hp :
        (ASTParser.pairStats (ASTParser.cohesionCollect (walkNodes n)).fieldAccesses
          (ASTParser.cohesionCollect (walkNodes n)).methods).1 > 0
    · simp only [hp, if_pos]
      refine ⟨by positivity, ?_⟩
      rw [div_le_one (by exact_mod_cast hp)]
      exact_mod_cast pairStats_snd_le_fst _ _
    · simp [hp]
  · intro _
    unfold ASTParser.calculateCohesion
    simp [hzero]

/-- Witness for C8 at a concrete unit with fewer than two methods. -/
theorem cohesion_in_unit_interval_witness :
    ASTParser.countMethods exIfNode < 2 ∧
    ASTParser.calculateCohesion exIfNode = 1 :=
  ⟨by decide, (cohesion_in_unit_interval exIfNode).2 (by decide)⟩

/-! ## C5 — the long-function detector never flags anything -/

/-- Follows the spec's words (long-function detector, §4.3 of the
spec): walk every node of the tree and apply the per-node flagging rule
to each `function_definition`. -/
def specDetectLongFunctions (fileName : String) (root : Node) : List CodeSmell :=
  root.preorder.filterMap (longFunctionSmell fileName)

/-- A function body spanning exactly 21 lines. -/
def exBody21 : Node :=
  .mk "compound_statement" 9 (jsJoin "\n" (List.replicate 21 "x")) []

/-- A `function_definition` node with declarator `f` and a 21-line
body. -/
def exFn21 : Node :=
  .mk "function_definition" 9 "void f() ..."
    [(some "declarator", .mk "function_declarator" 9 "f" []),
     (some "body", exBody21)]

/-- A file root holding the 21-line function. -/
def exRoot21 : Node :=
  .mk "translation_unit" 0 "void f() ..." [(none, exFn21)]

/-- **C5** (code bug).  The claim describes the intended detector: a
body of more than 20 lines is flagged (21 lines low, 41 high).  But
web-tree-sitter's `SyntaxNode.walk()` takes no visitor — the `{enter}`
object passed by `detectLongFunctions` is ignored and a cursor
returned — so the `enter` callback never runs and the detector returns
`[]` on every input.  On a file holding a 21-line function the code
flags nothing, while the callback body itself would flag that node and
the spec's walk yields exactly one finding. -/
theorem longFunctions_never_flagged :
    detectLongFunctions "a.cpp" exRoot21 = [] ∧
    (jsSplit exBody21.text "\n").length = 21 ∧
    (longFunctionSmell "a.cpp" exFn21).isSome ∧
    (specDetectLongFunctions "a.cpp" exRoot21).length = 1 :=
  ⟨rfl, by decide, by decide, by decide⟩

/-! ## C6 — duplicate-code pairing -/

/-- **C6** (confirmed).  When the function regex yields exactly two
matches whose bodies normalize identically, `detectDuplicateCode` emits
exactly one high-severity finding against the later function referencing
the earlier one if the normalized body exceeds 100 characters, and no
finding otherwise. -/
theorem duplicate_code_pairs (eng : LexMatchers) (content fileName : String)
    (f g : FnMatch) (hm : eng.fnMatches content = [f, g])
    (heq : normalizeBody f.body = normalizeBody g.body) :
    (jsLength (normalizeBody g.body) > 100 →
      detectDuplicateCode eng content fileName =
        [duplicateSmell fileName g.functionName (lineOfIndex content g.index)
          f.functionName (lineOfIndex content f.index)]) ∧
    (jsLength (normalizeBody g.body) ≤ 100 →
      detectDuplicateCode eng content fileName = []) := by
  unfold detectDuplicateCode
  rw [hm]
  constructor
  · intro h
    simp [dupGo, heq, h, List.find?]
  · intro h
    have h' : ¬ jsLength (normalizeBody g.body) > 100 := by omega
    simp [dupGo, heq, h']

/-- Witness matchers whose every regex yields no matches. -/
def emptyMatchers : LexMatchers :=
  { sigMatches := fun _ => [],
    globalMatches := fun _ => [],
    fnMatches := fun _ => [],
    classMatches := fun _ => [],
    condMatches := fun _ => [],
    memberAccesses := fun _ => [],
    pointerAccesses := fun _ => [],
    condOps := fun _ => [] }

/-- A 120-character function body (long enough to be remembered). -/
def exDupBody : String := (List.replicate 120 'a').asString

/-- First occurrence of the duplicated function. -/
def exDupF : FnMatch :=
  { index := 0, returnType := "int", functionName := "f", params := "", body := exDupBody }

/-- Second occurrence of the duplicated function. -/
def exDupG : FnMatch :=
  { index := 200, returnType := "int", functionName := "g", params := "", body := exDupBody }

/-- Matchers seeing exactly the two duplicated functions. -/
def dupMatchers : LexMatchers :=
  { emptyMatchers with fnMatches := fun _ => [exDupF, exDupG] }

/-- Witness for C6: two identical 120-character bodies give exactly one
finding against the later function. -/
theorem duplicate_code_pairs_witness :
    jsLength (normalizeBody exDupG.body) = 120 ∧
    detectDuplicateCode dupMatchers "" "dup.cpp" =
      [duplicateSmell "dup.cpp" exDupG.functionName (lineOfIndex "" exDupG.index)
        exDupF.functionName (lineOfIndex "" exDupF.index)] := by
  refine ⟨by decide, ?_⟩
  exact (duplicate_code_pairs dupMatchers "" "dup.cpp" exDupF exDupG rfl rfl).1 (by decide)

/-! ## C4 — deep-nesting runs -/

/-- **C4** (counterexample).  The claim promises exactly one finding per
top-level nesting run whose maximum depth exceeds 3; but on a single run
that reaches depth 4, dips to 3 and climbs back to 4 before closing, the
detector fires once per closing brace met at the recorded maximum: two
findings for one run of maximum depth 4. -/
theorem deepNesting_two_findings_for_one_run :
    specRunMaxima 0 0 doublePeakLines = [4] ∧
    (detectDeepNestingLines "f.cpp" doublePeakLines).length = 2 :=
  ⟨by decide, by decide⟩

theorem deepNestingLine_open (fileName : String) (i : Nat) (st : DeepNestingState) :
    deepNestingLine fileName i openLine st =
      if st.currentNestingLevel + 1 > st.maxNestingLevel then
        { st with currentNestingLevel := st.currentNestingLevel + 1,
                  maxNestingLevel := st.currentNestingLevel + 1,
                  nestingStartLine := i + 1 }
      else { st with currentNestingLevel := st.currentNestingLevel + 1 } := rfl

theorem deepNestingLine_close (fileName : String) (i : Nat) (st : DeepNestingState) :
    deepNestingLine fileName i closeLine st =
      (let smells :=
        if st.currentNestingLevel = st.maxNestingLevel ∧ st.maxNestingLevel > 3 then
          st.smells ++ [deepNestingSmell fileName st.nestingStartLine st.maxNestingLevel]
        else st.smells
       if st.currentNestingLevel - 1 = 0 then
         { currentNestingLevel := st.currentNestingLevel - 1, maxNestingLevel := 0,
           nestingStartLine := st.nestingStartLine, smells := smells }
       else
         { st with currentNestingLevel := st.currentNestingLevel - 1,
                   smells := smells }) := rfl

theorem deepNestingGo_opens (fileName : String) :
    ∀ (j i : Nat) (l : Int) (sl : Nat) (s : List CodeSmell) (rest : List String),
      deepNestingGo fileName i (List.replicate (j + 1) openLine ++ rest) ⟨l, l, sl, s⟩ =
        deepNestingGo fileName (i + (j + 1)) rest
          ⟨l + ((j : Int) + 1), l + ((j : Int) + 1), i + (j + 1), s⟩ := by
  intro j
  induction j with
  | zero =>
    intro i l sl s rest
    have hrep : List.replicate (0 + 1) openLine ++ rest = openLine :: rest := by simp
    rw [hrep]
    simp only [deepNestingGo, deepNestingLine_open, if_pos (show l + 1 > l by omega)]
    norm_num
  | succ j ih =>
    intro i l sl s rest
    have hrep : List.replicate (j + 1 + 1) openLine ++ rest
        = openLine :: (List.replicate (j + 1) openLine ++ rest) := by
      rw [List.replicate_succ]; rfl
    rw [hrep]
    simp only [deepNestingGo, deepNestingLine_open, if_pos (show l + 1 > l by omega)]
    refine Eq.trans (ih (i + 1) (l + 1) (i + 1) s rest) ?_
    have h1 : (i + 1) + (j + 1) = i + (j + 1 + 1) := by omega
    have h2 : l + 1 + ((j : Int) + 1) = l + (((j + 1 : Nat) : Int) + 1) := by
      push_cast; ring
    rw [h1, h2]

theorem deepNestingGo_closes (fileName : String) :
    ∀ (j : Nat) (i : Nat) (l m : Int) (sl : Nat) (s : List CodeSmell),
      l = (j : Int) → l < m →
      (deepNestingGo fileName i (List.replicate j closeLine) ⟨l, m, sl, s⟩).smells = s := by
  intro j
  induction j with
  | zero => intro i l m sl s _ _; rfl
  | succ j ih =>
    intro i l m sl s hl hm
    have hrep : List.replicate (j + 1) closeLine
        = closeLine :: List.replicate j closeLine := by
      rw [List.replicate_succ]
    rw [hrep]
    simp only [deepNestingGo, deepNestingLine_close]
    rw [if_neg (show ¬(l = m ∧ m > 3) from by omega)]
    by_cases hj : l - 1 = 0
    · have hj0 : j = 0 := by omega
      subst hj0
      rw [if_pos hj]
      rfl
    · rw [if_neg hj]
      exact ih (i + 1) (l - 1) m sl s (by omega) (by omega)

/-- **C4** (amended).  For a single-peak top-level run — `k` opening
lines followed by `k` closing lines — the detector emits no finding when
the depth stays at 3 or below, and exactly one finding at the line of
the deepest opening brace otherwise, with severity medium at depth 4 and
high at depth 5 and beyond.  (A run that returns to its maximum depth
several times instead fires once per closing brace met at the maximum —
see the counterexample.) -/
theorem deepNesting_single_peak (fileName : String) (k : Nat) :
    detectDeepNestingLines fileName
        (List.replicate k openLine ++ List.replicate k closeLine) =
      (if k > 3 then [deepNestingSmell fileName k (k : Int)] else []) := by
  cases k with
  | zero => rfl
  | succ j =>
    unfold detectDeepNestingLines
    rw [deepNestingGo_opens fileName j 0 0 0 []]
    have hrep : List.replicate (j + 1) closeLine
        = closeLine :: List.replicate j closeLine := by rw [List.replicate_succ]
    rw [hrep]
    simp only [Nat.zero_add, zero_add, deepNestingGo, deepNestingLine_close]
    by_cases hj : j = 0
    · subst hj
      norm_num [deepNestingGo]
    · rw [if_neg (show ¬(((j : Int) + 1) - 1 = 0) from by omega)]
      by_cases h3 : (3 : Int) < (j : Int) + 1
      · rw [if_pos (⟨trivial, h3⟩ : True ∧ (j : Int) + 1 > 3)]
        refine Eq.trans
          (deepNestingGo_closes fileName j (j + 1 + 1) (((j : Int) + 1) - 1)
            ((j : Int) + 1) (j + 1)
            ([] ++ [deepNestingSmell fileName (j + 1) ((j : Int) + 1)])
            (by omega) (by omega)) ?_
        rw [if_pos (show j + 1 > 3 by omega)]
        push_cast
        simp
      · rw [if_neg (fun hc => h3 hc.2)]
        refine Eq.trans
          (deepNestingGo_closes fileName j (j + 1 + 1) (((j : Int) + 1) - 1)
            ((j : Int) + 1) (j + 1) [] (by omega) (by omega)) ?_
        rw [if_neg (show ¬(j + 1 > 3) by omega)]

/-! ## C2 — per-file counts versus the total -/

/-- Sum of the values of a string-keyed count record. -/
def sumValues (m : List (String × Nat)) : Nat := (m.map (·.2)).sum

theorem recordSet_fresh (m : List (String × Nat)) (k : String) (v : Nat)
    (h : ∀ p ∈ m, p.1 ≠ k) : recordSet m k v = m ++ [(k, v)] := by
  unfold recordSet
  have hany : m.any (fun p => p.1 = k) = false := by
    rw [List.any_eq_false]
    intro p hp
    simpa using h p hp
  simp [hany]

theorem statsFold_fst :
    ∀ (results : List AnalysisResult) (m : List (String × Nat)) (t : SmellsByType),
      (∀ r ∈ results, ∀ p ∈ m, p.1 ≠ r.fileName) →
      results.Pairwise (fun a b => a.fileName ≠ b.fileName) →
      (results.foldl statsTally (m, t)).1 =
        m ++ results.map (fun r => (r.fileName, r.totalSmells))
  | [], m, t, _, _ => by simp
  | r :: rs, m, t, hfresh, hpw => by
    have hpw' := List.pairwise_cons.mp hpw
    have hstep : statsTally (m, t) r =
        (m ++ [(r.fileName, r.totalSmells)], (statsTally (m, t) r).2) := by
      unfold statsTally
      rw [recordSet_fresh m r.fileName r.totalSmells
        (fun p hp => hfresh r (by simp) p hp)]
    simp only [List.foldl_cons, List.map_cons]
    rw [hstep]
    rw [statsFold_fst rs (m ++ [(r.fileName, r.totalSmells)]) _ ?_ hpw'.2]
    · simp
    · intro r2 hr2 p hp
      rcases List.mem_append.mp hp with hm | hone
      · exact hfresh r2 (by simp [hr2]) p hm
      · have hp1 : p.1 = r.fileName := by
          simp at hone
          rw [hone]
        rw [hp1]
        exact hpw'.1 r2 hr2
  termination_by results => results.length

theorem foldl_add_totalSmells :
    ∀ (l : List AnalysisResult) (n : Nat),
      l.foldl (fun sum r => sum + r.totalSmells) n =
        n + (l.map (·.totalSmells)).sum
  | [], n => by simp
  | r :: l, n => by
    simp only [List.foldl_cons, List.map_cons, List.sum_cons]
    rw [foldl_add_totalSmells l (n + r.totalSmells)]
    omega

/-- A representative finding used by concrete batches. -/
def exSmell : CodeSmell :=
  { type := .LongFunction, fileName := "a.cpp", lineNumber := 1,
    endLineNumber := none, codeSnippet := "", entityName := "f",
    description := "", refactoringTip := "", severity := .low, metrics := none }

/-- A one-finding result for file `a.cpp`. -/
def exResultA : AnalysisResult :=
  { fileName := "a.cpp", fileSize := 10, smells := [("id-1", exSmell)],
    totalSmells := 1, timestamp := 0, metrics := ⟨1, 1, 0, 0, 0, 1⟩ }

/-- The same file submitted twice: two results sharing one file name. -/
def dupNameResults : List AnalysisResult := [exResultA, exResultA]

/-- **C2** (counterexample).  When two results share a file name, the
`smellsByFile` assignment overwrites instead of accumulating, so the
per-file counts sum to 1 while `totalSmells` is 2 — the claimed equality
fails for this batch. -/
theorem smellsByFile_sum_breaks_on_duplicate_names :
    sumValues (calculateStats dupNameResults).smellsByFile = 1 ∧
    (calculateStats dupNameResults).totalSmells = 2 :=
  ⟨by decide, by decide⟩

/-- **C2** (amended).  For batches whose file names are pairwise
distinct, the per-file finding counts in `smellsByFile` sum to
`totalSmells`. -/
theorem smellsByFile_sums_to_total (results : List AnalysisResult)
    (hdist : results.Pairwise (fun a b => a.fileName ≠ b.fileName)) :
    sumValues (calculateStats results).smellsByFile =
      (calculateStats results).totalSmells := by
  show sumValues (results.foldl statsTally ([], zeroSmellsByType)).1 =
    results.foldl (fun sum r => sum + r.totalSmells) 0
  rw [statsFold_fst results [] zeroSmellsByType (by simp) hdist]
  rw [foldl_add_totalSmells results 0]
  simp only [sumValues, List.nil_append, List.map_map, Nat.zero_add]
  congr 1

/-- A one-finding result for file `b.cpp`. -/
def exResultB : AnalysisResult :=
  { exResultA with fileName := "b.cpp" }

/-- Witness for the amended C2 on a two-file batch with distinct
names. -/
theorem smellsByFile_sums_to_total_witness :
    sumValues (calculateStats [exResultA, exResultB]).smellsByFile =
      (calculateStats [exResultA, exResultB]).totalSmells :=
  smellsByFile_sums_to_total [exResultA, exResultB] (by decide)

/-! ## C3 — averaged metrics on an empty batch -/

/-- **C3** (code bug).  On an empty batch `calculateStats` divides each
per-field sum by the file count 0 — `0 / 0`, `NaN` in JS — so every
averaged metric is non-finite instead of the claimed guarded,
well-defined value. -/
theorem averageMetrics_nan_on_empty_batch :
    (calculateStats []).averageMetrics =
      { cyclomaticComplexity := none, linesOfCode := none, methodCount := none,
        inheritanceDepth := none, couplingCount := none, cohesionScore := none } := by
  decide

/-! ## C7 — worst files: sorted, stable, top five -/

theorem filter_orderedInsert (c : Nat) (x : String × Nat) :
    ∀ l : List (String × Nat),
      (List.orderedInsert byCountDesc x l).filter (fun p => p.2 = c) =
        ((if x.2 = c then [x] else []) ++ l.filter (fun p => p.2 = c))
  | [] => by
    simp only [List.orderedInsert, List.filter]
    by_cases hx : x.2 = c <;> simp [hx]
  | y :: ys => by
    simp only [List.orderedInsert]
    by_cases hr : byCountDesc x y
    · rw [if_pos hr]
      by_cases hx : x.2 = c <;> simp [hx, List.filter_cons]
    · rw [if_neg hr]
      rw [List.filter_cons, List.filter_cons]
      rw [filter_orderedInsert c x ys]
      by_cases hx : x.2 = c <;> by_cases hy : y.2 = c
      · exfalso
        exact hr (le_of_eq (hy.trans hx.symm))
      · simp [hx, hy]
      · simp [hx, hy]
      · simp [hx, hy]

theorem filter_sortDesc (c : Nat) :
    ∀ l : List (String × Nat),
      (sortDesc l).filter (fun p => p.2 = c) = l.filter (fun p => p.2 = c)
  | [] => rfl
  | x :: l => by
    have hunfold : sortDesc (x :: l) =
        List.orderedInsert byCountDesc x (sortDesc l) := rfl
    rw [hunfold, filter_orderedInsert c x (sortDesc l), filter_sortDesc c l,
      List.filter_cons]
    by_cases hx : x.2 = c <;> simp [hx]

/-- A findings-only result used by the worst-files example: `count`
findings for the named file. -/
def mkCountedResult (name : String) (count : Nat) : AnalysisResult :=
  { fileName := name, fileSize := 0,
    smells := List.replicate count ("id", exSmell),
    totalSmells := count, timestamp := 0, metrics := ⟨0, 0, 0, 0, 0, 0⟩ }

/-- Four files with finding counts 5, 5, 3, 1, the first two tied. -/
def tieResults : List AnalysisResult :=
  [mkCountedResult "a.cpp" 5, mkCountedResult "b.cpp" 5,
   mkCountedResult "c.cpp" 3, mkCountedResult "d.cpp" 1]

/-- **C7** (confirmed).  `worstFiles` is the stable descending sort of
the per-file counts truncated to five entries: the sorted list is
ordered by non-increasing count, and for every count value the entries
carrying it appear in their original `smellsByFile` order (stability);
on counts `[5, 5, 3, 1]` the two files tied at 5 keep their input
order. -/
theorem worstFiles_sorted_stable_top5 (results : List AnalysisResult) :
    (calculateStats results).worstFiles =
      (sortDesc (calculateStats results).smellsByFile).take 5 ∧
    List.Sorted byCountDesc (sortDesc (calculateStats results).smellsByFile) ∧
    (∀ c : Nat,
      (sortDesc (calculateStats results).smellsByFile).filter (fun p => p.2 = c) =
        (calculateStats results).smellsByFile.filter (fun p => p.2 = c)) ∧
    (calculateStats tieResults).worstFiles =
      [("a.cpp", 5), ("b.cpp", 5), ("c.cpp", 3), ("d.cpp", 1)] :=
  ⟨rfl, List.sorted_insertionSort byCountDesc _,
   fun c => filter_sortDesc c _, by decide⟩

/-! ## C9 — determinism of analyzeCode -/

/-- The findings of an optional analysis result with the generated ids
erased. -/
def resultFindings (r : Option AnalysisResult) : Option (List CodeSmell) :=
  r.map (fun x => x.smells.map (fun p => p.2))

/-- The file-level metrics of an optional analysis result. -/
def resultMetrics (r : Option AnalysisResult) : Option CodeMetrics :=
  r.map (·.metrics)

theorem assignIds_strip (uuids : Nat → String) :
    ∀ (i : Nat) (l : List CodeSmell),
      (assignIds uuids i l).map (fun p => p.2) = l
  | _, [] => rfl
  | i, s :: rest => by
    simp only [assignIds, List.map_cons]
    rw [assignIds_strip uuids (i + 1) rest]

/-- **C9** (confirmed).  The findings (ids erased) and the file metrics
produced by `analyzeCode` depend only on the text, the file name, the
parse function and the regex engine: two runs with different content
caches, uuid supplies and clocks agree on both. -/
theorem analyzeCode_deterministic (eng : LexMatchers) (parse : String → Option Node)
    (content fileName : String) (store1 store2 : List (String × String))
    (uuids1 uuids2 : Nat → String) (now1 now2 : Nat) :
    resultFindings (analyzeCode eng parse uuids1 now1 store1 content fileName).2 =
      resultFindings (analyzeCode eng parse uuids2 now2 store2 content fileName).2 ∧
    resultMetrics (analyzeCode eng parse uuids1 now1 store1 content fileName).2 =
      resultMetrics (analyzeCode eng parse uuids2 now2 store2 content fileName).2 := by
  cases hp : parse content with
  | none => simp [analyzeCode, hp]
  | some root =>
    constructor
    · simp [analyzeCode, hp, resultFindings, assignIds_strip]
    · simp [analyzeCode, hp, resultMetrics]

/-! ## C10 — the content cache is written before parsing -/

theorem storeSet_cons_ne (p : String × String) (rest : List (String × String))
    (k v : String) (hp : p.1 ≠ k) :
    storeSet (p :: rest) k v = p :: storeSet rest k v := by
  unfold storeSet
  have h1 : ((p :: rest).any (fun q => q.1 = k)) = rest.any (fun q => q.1 = k) := by
    simp [List.any_cons, hp]
  rw [h1]
  by_cases h : rest.any (fun q => q.1 = k) <;> simp [h, hp]

theorem storeGet_storeSet :
    ∀ (store : List (String × String)) (k v : String),
      storeGet (storeSet store k v) k = some v
  | [], k, v => by simp [storeSet, storeGet, List.find?]
  | p :: rest, k, v => by
    by_cases hp : p.1 = k
    · unfold storeSet
      have h1 : ((p :: rest).any (fun q => q.1 = k)) = true := by
        simp [List.any_cons, hp]
      rw [h1]
      simp [storeGet, List.find?, hp]
    · rw [storeSet_cons_ne p rest k v hp]
      unfold storeGet
      rw [List.find?_cons_of_neg _ (by simpa using hp)]
      exact storeGet_storeSet rest k v

/-- **C10** (counterexample).  Submitting the empty string: the cache is
overwritten (the entry holds `""`), yet `getFileContent` does not return
the newly submitted text — the JS `get(...) || sentinel` treats the
empty string as falsy and yields the not-available sentinel. -/
theorem getFileContent_sentinel_on_empty_submission :
    (analyzeCode emptyMatchers (fun _ => none) (fun _ => "") 0 [] "" "a.cpp").2 = none ∧
    storeGet (analyzeCode emptyMatchers (fun _ => none) (fun _ => "") 0 [] "" "a.cpp").1
      "a.cpp" = some "" ∧
    getFileContent (analyzeCode emptyMatchers (fun _ => none) (fun _ => "") 0 [] "" "a.cpp").1
      "a.cpp" = "// File content not available" :=
  ⟨by decide, by decide, by decide⟩

/-- **C10** (amended).  `analyzeCode` writes the submitted text into the
content cache before parsing: for every parse outcome — including a
parser failure, which produces no result — the cache entry holds the
new text, and `getFileContent` returns it whenever it is nonempty (an
empty submission is still cached, but read back as the sentinel). -/
theorem analyzeCode_caches_before_parse (eng : LexMatchers)
    (parse : String → Option Node) (uuids : Nat → String) (now : Nat)
    (store : List (String × String)) (content fileName : String) :
    storeGet (analyzeCode eng parse uuids now store content fileName).1 fileName =
      some content ∧
    (content ≠ "" →
      getFileContent (analyzeCode eng parse uuids now store content fileName).1 fileName
        = content) ∧
    (parse content = none →
      (analyzeCode eng parse uuids now store content fileName).2 = none) := by
  have hstore : (analyzeCode eng parse uuids now store content fileName).1 =
      storeSet store fileName content := by
    unfold analyzeCode
    cases parse content <;> rfl
  refine ⟨?_, ?_, ?_⟩
  · rw [hstore]
    exact storeGet_storeSet store fileName content
  · intro hne
    rw [hstore]
    unfold getFileContent
    rw [storeGet_storeSet store fileName content]
    simp [hne]
  · intro hp
    simp [analyzeCode, hp]

/-- Witness for the amended C10: a nonempty submission whose parse
fails is cached and read back verbatim while no result is produced. -/
theorem analyzeCode_caches_before_parse_witness :
    ("x" : String) ≠ "" ∧
    getFileContent (analyzeCode emptyMatchers (fun _ => none) (fun _ => "") 0 [] "x" "w.cpp").1
      "w.cpp" = "x" ∧
    (analyzeCode emptyMatchers (fun _ => none) (fun _ => "") 0 [] "x" "w.cpp").2 = none := by
  refine ⟨by decide, ?_, ?_⟩
  · exact (analyzeCode_caches_before_parse emptyMatchers (fun _ => none) (fun _ => "")
      0 [] "x" "w.cpp").2.1 (by decide)
  · exact (analyzeCode_caches_before_parse emptyMatchers (fun _ => none) (fun _ => "")
      0 [] "x" "w.cpp").2.2 rfl
